import Mathlib

/-!
Verification development for the CoolTrack AC service tracker.

Time is modelled as an integer count of milliseconds since the epoch, at a
fixed UTC offset (JavaScript `Date.getTime()`).  Whole-day counts translate
the three roundings used by the source:
  * `date-fns` `differenceInDays` truncates toward zero   → `Int.tdiv`;
  * `Math.floor(diff / msPerDay)` (client `firebase.ts`)  → `Int.fdiv`;
  * `Math.ceil(diff / msPerDay)`  (server `storage.ts`)   → `ceilDiv` below.
-/

/-- Milliseconds in one day: `1000 * 60 * 60 * 24`. -/
def msPerDay : Int := 1000 * 60 * 60 * 24

/-- Ceiling division for integers (`Math.ceil(a / b)` for positive `b`),
expressed through floor division. -/
def ceilDiv (a b : Int) : Int := -(Int.fdiv (-a) b)

/-- `date-fns` `differenceInDays laterDate earlierDate`: the number of whole
days from `earlierDate` to `laterDate`, fractional days truncated toward
zero. -/
def differenceInDays (laterDate earlierDate : Int) : Int :=
  Int.tdiv (laterDate - earlierDate) msPerDay

/-- An AC unit as stored by the server (`shared/schema.ts` table `ac_units`):
id, owning user id, location label, optional last service date, required
next service date, optional notes, creation timestamp. -/
structure AcUnit where
  id : Nat
  userId : Nat
  location : String
  lastServiceDate : Option Int
  nextServiceDate : Int
  notes : Option String
  createdAt : Int
deriving Repr, DecidableEq

/-- The status buckets of the per-unit card (`ac-unit-card.tsx`): the red
overdue banner, the yellow upcoming banner, or the plain gray section. -/
inductive CardStatus where
  | overdue
  | upcoming
  | normal
deriving Repr, DecidableEq

/-- `ac-unit-card.tsx` line 52: `daysRemaining = differenceInDays(nextService, now)`. -/
def cardDaysRemaining (nextServiceDate now : Int) : Int :=
  differenceInDays nextServiceDate now

/-- `ac-unit-card.tsx` lines 54-56 and 120-188: `isOverdue = daysRemaining < 0`,
`isUpcoming = daysRemaining >= 0 && daysRemaining <= 7`, rendered as
overdue / upcoming / normal in that order. -/
def cardStatus (nextServiceDate now : Int) : CardStatus :=
  let d := cardDaysRemaining nextServiceDate now
  let isOverdue := d < 0
  let isUpcoming := d ≥ 0 && d ≤ 7
  if isOverdue then CardStatus.overdue
  else if isUpcoming then CardStatus.upcoming
  else CardStatus.normal

/-- The status text rendered on the card: `Overdue by ${Math.abs(daysRemaining)} days`
in the overdue branch, `${daysRemaining} days remaining` otherwise
(`ac-unit-card.tsx` lines 128, 151, 173). -/
def cardStatusLabel (nextServiceDate now : Int) : String :=
  let d := cardDaysRemaining nextServiceDate now
  let n := d.natAbs
  if d < 0 then s!"Overdue by {n} days"
  else s!"{d} days remaining"

/-- The dashboard statistics record returned by both aggregator
implementations. -/
structure DashboardStats where
  totalUnits : Nat
  upcomingServices : Nat
  overdueServices : Nat
  servicesCompleted : Nat
deriving Repr, DecidableEq

/-- Server aggregator day count (`storage.ts` lines 223-224):
`Math.ceil((nextService - now) / msPerDay)`. -/
def serverDiffDays (u : AcUnit) (now : Int) : Int :=
  ceilDiv (u.nextServiceDate - now) msPerDay

/-- Server upcoming filter (`storage.ts` line 225): `diffDays > 0 && diffDays <= 30`. -/
def serverUpcomingB (now : Int) (u : AcUnit) : Bool :=
  serverDiffDays u now > 0 && serverDiffDays u now ≤ 30

/-- Server overdue filter (`storage.ts` line 231): `nextService < now`
(a raw millisecond comparison of the two dates). -/
def serverOverdueB (now : Int) (u : AcUnit) : Bool :=
  u.nextServiceDate < now

/-- Server completed filter (`storage.ts` lines 236-239):
`lastServiceDate !== null && lastServiceDate <= now && nextServiceDate > now`. -/
def serverCompletedB (now : Int) (u : AcUnit) : Bool :=
  match u.lastServiceDate with
  | none => false
  | some last => last ≤ now && u.nextServiceDate > now

/-- The body of `MemStorage.getDashboardStats` (`storage.ts` lines 217-247)
applied to the user's unit list: three independent filters over the list
plus its length. -/
def serverStatsOf (units : List AcUnit) (now : Int) : DashboardStats :=
  { totalUnits := units.length
    upcomingServices := (units.filter (serverUpcomingB now)).length
    overdueServices := (units.filter (serverOverdueB now)).length
    servicesCompleted := (units.filter (serverCompletedB now)).length }

/-- Firebase aggregator day count (`firebase.ts` line 286):
`Math.floor((nextServiceDate - today) / msPerDay)`. -/
def fbDaysTill (u : AcUnit) (now : Int) : Int :=
  Int.fdiv (u.nextServiceDate - now) msPerDay

/-- The firebase per-unit overdue condition (`firebase.ts` line 288). -/
def fbOverdueB (now : Int) (u : AcUnit) : Bool :=
  fbDaysTill u now < 0

/-- The firebase per-unit upcoming condition (`firebase.ts` line 291):
reached only when the overdue branch was not taken. -/
def fbUpcomingB (now : Int) (u : AcUnit) : Bool :=
  !(fbDaysTill u now < 0) && fbDaysTill u now ≤ 30

/-- The firebase per-unit completed condition (`firebase.ts` line 297):
merely `unit.lastServiceDate` being non-null. -/
def fbCompletedB (u : AcUnit) : Bool :=
  u.lastServiceDate.isSome

/-- One iteration of the `acUnits.forEach` loop in the firebase
`getDashboardStats` (`firebase.ts` lines 282-300): bump overdue when
`daysTillService < 0`, else bump upcoming when `daysTillService <= 30`;
independently bump completed when `lastServiceDate` is non-null. -/
def fbStep (now : Int) (stats : DashboardStats) (u : AcUnit) : DashboardStats :=
  let d := fbDaysTill u now
  let s1 :=
    if d < 0 then { stats with overdueServices := stats.overdueServices + 1 }
    else if d ≤ 30 then { stats with upcomingServices := stats.upcomingServices + 1 }
    else stats
  if u.lastServiceDate.isSome then { s1 with servicesCompleted := s1.servicesCompleted + 1 }
  else s1

/-- `getDashboardStats` of `firebase.ts` (lines 271-312) applied to the
user's unit list: fold the forEach loop over the list starting from
all-zero counters, with `totalUnits` the list length. -/
def getDashboardStatsFirebase (units : List AcUnit) (now : Int) : DashboardStats :=
  units.foldl (fbStep now)
    { totalUnits := units.length
      upcomingServices := 0
      overdueServices := 0
      servicesCompleted := 0 }

/-- Spec-worded count for the C2 comparison: the number of units whose
whole-day `daysRemaining` satisfies `0 < daysRemaining <= 30`.  At the
inputs used to compare it with the code, the difference of dates is an
exact multiple of a day, so floor, ceiling and truncation agree; floor is
used here. -/
def specUpcomingCount (units : List AcUnit) (now : Int) : Nat :=
  (units.filter (fun u => 0 < Int.fdiv (u.nextServiceDate - now) msPerDay &&
    Int.fdiv (u.nextServiceDate - now) msPerDay ≤ 30)).length

/-- Spec-worded predicate for the C3 comparison: a non-null last-service
date that is on/before now AND a next-service date after now. -/
def specCompletedB (now : Int) (u : AcUnit) : Bool :=
  match u.lastServiceDate with
  | none => false
  | some last => last ≤ now && now < u.nextServiceDate

/-- `calculateDaysUntil` of `emailService.ts` (lines 79-97), on valid dates:
`diffDays = Math.ceil((futureDate - fromDate) / msPerDay)`, returned only
when positive, else 0. -/
def calculateDaysUntil (futureDate fromDate : Int) : Int :=
  let diffTime := futureDate - fromDate
  let diffDays := ceilDiv diffTime msPerDay
  if diffDays > 0 then diffDays else 0

/-- The insertable fields of an AC unit (`insertAcUnitSchema` omits `id`
and `createdAt`). -/
structure InsertAcUnit where
  userId : Nat
  location : String
  lastServiceDate : Option Int
  nextServiceDate : Int
  notes : Option String
deriving Repr, DecidableEq

/-- The in-memory store of `MemStorage` restricted to AC units: the
`Map<number, AcUnit>` is modelled as a list of units keyed by `id`,
together with the `acUnitIdCounter`. -/
structure MemStorage where
  acUnits : List AcUnit
  acUnitIdCounter : Nat
deriving Repr, DecidableEq

/-- `Map.set(id, unit)`: replace the entry holding `id` when present,
otherwise add the entry. -/
def mapSet (units : List AcUnit) (id : Nat) (unit : AcUnit) : List AcUnit :=
  if units.any (fun u => u.id == id) then
    units.map (fun u => if u.id == id then unit else u)
  else units ++ [unit]

/-- `MemStorage.getAcUnit` (`storage.ts` lines 107-109): `Map.get(id)`. -/
def MemStorage.getAcUnit (s : MemStorage) (id : Nat) : Option AcUnit :=
  s.acUnits.find? (fun u => u.id == id)

/-- `MemStorage.getAcUnitsByUserId` (`storage.ts` lines 111-115): filter the
stored units on `unit.userId === userId`. -/
def MemStorage.getAcUnitsByUserId (s : MemStorage) (userId : Nat) : List AcUnit :=
  s.acUnits.filter (fun u => u.userId == userId)

/-- `MemStorage.createAcUnit` (`storage.ts` lines 117-127): take the next
counter value as id, stamp `createdAt` with the current time, store and
return the new unit. -/
def MemStorage.createAcUnit (s : MemStorage) (insert : InsertAcUnit) (now : Int) :
    AcUnit × MemStorage :=
  let id := s.acUnitIdCounter
  let acUnit : AcUnit :=
    { id := id
      userId := insert.userId
      location := insert.location
      lastServiceDate := insert.lastServiceDate
      nextServiceDate := insert.nextServiceDate
      notes := insert.notes
      createdAt := now }
  (acUnit, { acUnits := mapSet s.acUnits id acUnit, acUnitIdCounter := s.acUnitIdCounter + 1 })

/-- A `Partial<InsertAcUnit>` PATCH body: each insertable field is either
absent or present with a value (`lastServiceDate` and `notes` may be
present-and-null). `id` and `createdAt` cannot occur. -/
structure UpdateAcUnitData where
  userId : Option Nat := none
  location : Option String := none
  lastServiceDate : Option (Option Int) := none
  nextServiceDate : Option Int := none
  notes : Option (Option String) := none
deriving Repr, DecidableEq

/-- The spread `{ ...acUnit, ...data }` of `MemStorage.updateAcUnit`: fields
present in `data` win, all others keep the unit's previous value. -/
def applyUpdate (u : AcUnit) (d : UpdateAcUnitData) : AcUnit :=
  { u with
    userId := d.userId.getD u.userId
    location := d.location.getD u.location
    lastServiceDate := d.lastServiceDate.getD u.lastServiceDate
    nextServiceDate := d.nextServiceDate.getD u.nextServiceDate
    notes := d.notes.getD u.notes }

/-- `MemStorage.updateAcUnit` (`storage.ts` lines 129-136): look the unit
up; when absent return `undefined` leaving the store alone, otherwise merge
and re-store under the same id. -/
def MemStorage.updateAcUnit (s : MemStorage) (id : Nat) (d : UpdateAcUnitData) :
    Option AcUnit × MemStorage :=
  match s.getAcUnit id with
  | none => (none, s)
  | some u =>
    let updated := applyUpdate u d
    (some updated, { s with acUnits := mapSet s.acUnits id updated })

/-- `MemStorage.deleteAcUnit` (`storage.ts` lines 138-140): `Map.delete(id)`,
returning whether an entry was removed. -/
def MemStorage.deleteAcUnit (s : MemStorage) (id : Nat) : Bool × MemStorage :=
  (s.acUnits.any (fun u => u.id == id),
   { s with acUnits := s.acUnits.filter (fun u => u.id != id) })

/-- The HTTP methods routed to `/api/ac-units/:id` in `node-server.ts`. -/
inductive Method where
  | get
  | patch
  | delete
deriving Repr, DecidableEq

/-- The `/api/ac-units/:id` handlers of `node-server.ts` (lines 443-554),
after URL parsing, as a function from method, session user, unit id, PATCH
body and store to status code and resulting store.  `requireAuth` (lines
143-151) answers 401 when the session has no user id; each handler then
answers 404 when the unit is absent and 403 when `acUnit.userId` differs
from the session user, in each case before touching the store; otherwise
GET answers 200, PATCH updates then answers 200, DELETE deletes then
answers 204. -/
def handleAcUnitById (m : Method) (sessionUserId : Option Nat) (id : Nat)
    (body : UpdateAcUnitData) (s : MemStorage) : Nat × MemStorage :=
  match sessionUserId with
  | none => (401, s)
  | some uid =>
    match s.getAcUnit id with
    | none => (404, s)
    | some acUnit =>
      if acUnit.userId ≠ uid then (403, s)
      else
        match m with
        | Method.get => (200, s)
        | Method.patch => (200, (s.updateAcUnit id body).2)
        | Method.delete => (204, (s.deleteAcUnit id).2)

/-! ## Helper lemmas -/

/-- A nonpositive numerator gives a nonpositive ceiling quotient. -/
theorem ceilDiv_nonpos {a b : Int} (ha : a ≤ 0) (hb : 0 ≤ b) : ceilDiv a b ≤ 0 := by
  have h : 0 ≤ Int.fdiv (-a) b := Int.fdiv_nonneg (by omega) hb
  unfold ceilDiv
  omega

/-- Two pointwise-incompatible filters keep, between them, at most the whole
list. -/
theorem length_filter_add_length_filter_le {α : Type} (p q : α → Bool) (l : List α)
    (h : ∀ x, p x = true → q x = true → False) :
    (l.filter p).length + (l.filter q).length ≤ l.length := by
  induction l with
  | nil => simp
  | cons a tl ih =>
    by_cases hp : p a = true
    · have hq : q a = false := by
        cases hqa : q a
        · rfl
        · exact (h a hp hqa).elim
      simp [List.filter_cons, hp, hq]
      omega
    · have hp' : p a = false := by simpa using hp
      by_cases hq : q a = true
      · simp [List.filter_cons, hp', hq]
        omega
      · have hq' : q a = false := by simpa using hq
        simp [List.filter_cons, hp', hq']
        omega

/-! ## C1: the per-card classifier -/

/-- Claim C1: with `daysRemaining` the whole-day difference between the next
service date and now, a negative count renders the card Overdue with a label
showing `abs(daysRemaining)` days overdue, and a count between 0 and 7
renders it Upcoming/Urgent. -/
theorem card_status_c1 (next now : Int) :
    (cardDaysRemaining next now < 0 →
      cardStatus next now = CardStatus.overdue ∧
      cardStatusLabel next now =
        "Overdue by " ++ toString (cardDaysRemaining next now).natAbs ++ " days") ∧
    (0 ≤ cardDaysRemaining next now ∧ cardDaysRemaining next now ≤ 7 →
      cardStatus next now = CardStatus.upcoming) := by
  constructor
  · intro h
    refine ⟨?_, ?_⟩
    · simp [cardStatus, h]
    · simp only [cardStatusLabel]
      rw [if_pos h]
      rfl
  · rintro ⟨h0, h7⟩
    have hno : ¬(cardDaysRemaining next now < 0) := by omega
    simp [cardStatus, hno, h0, h7]

/-- Witness for C1 at three days overdue and two days out. -/
theorem card_status_c1_witness :
    (cardDaysRemaining (-(3 * msPerDay)) 0 < 0 ∧
      cardStatus (-(3 * msPerDay)) 0 = CardStatus.overdue ∧
      cardStatusLabel (-(3 * msPerDay)) 0 =
        "Overdue by " ++ toString (cardDaysRemaining (-(3 * msPerDay)) 0).natAbs ++ " days") ∧
    (0 ≤ cardDaysRemaining (2 * msPerDay) 0 ∧ cardDaysRemaining (2 * msPerDay) 0 ≤ 7 ∧
      cardStatus (2 * msPerDay) 0 = CardStatus.upcoming) := by
  have h1 := (card_status_c1 (-(3 * msPerDay)) 0).1 (by decide)
  have h2 := (card_status_c1 (2 * msPerDay) 0).2 ⟨by decide, by decide⟩
  exact ⟨⟨by decide, h1.1, h1.2⟩, by decide, by decide, h2⟩

/-! ## C5: no double Overdue across consecutive days, for future dates -/

/-- Counterexample to C5 as stated: a date two days in the past is reported
Overdue both against today and against today plus one day. -/
theorem card_overdue_c5_counterexample :
    cardStatus (-(2 * msPerDay)) 0 = CardStatus.overdue ∧
    cardStatus (-(2 * msPerDay)) (0 + msPerDay) = CardStatus.overdue := by
  constructor
  · decide
  · decide

/-- Claim C5 (amended): for every date on or after today, classifying it
against today and against today plus one day does not report Overdue both
times; in fact against today it is never Overdue. -/
theorem card_overdue_c5_amended (nextDate today : Int) (h : today ≤ nextDate) :
    ¬(cardStatus nextDate today = CardStatus.overdue ∧
      cardStatus nextDate (today + msPerDay) = CardStatus.overdue) := by
  rintro ⟨h1, -⟩
  have hd : 0 ≤ cardDaysRemaining nextDate today := by
    have hsub : (0 : Int) ≤ nextDate - today := by omega
    exact Int.tdiv_nonneg hsub (by decide)
  have hno : ¬(cardDaysRemaining nextDate today < 0) := by omega
  by_cases hb : (cardDaysRemaining nextDate today ≥ 0 &&
      cardDaysRemaining nextDate today ≤ 7) = true
  · simp [cardStatus, hno, hb] at h1
  · simp [cardStatus, hno, hb] at h1

/-- Witness for the amended C5 at a date five days out. -/
theorem card_overdue_c5_amended_witness :
    (0 : Int) ≤ 5 * msPerDay ∧
    ¬(cardStatus (5 * msPerDay) 0 = CardStatus.overdue ∧
      cardStatus (5 * msPerDay) (0 + msPerDay) = CardStatus.overdue) :=
  ⟨by decide, card_overdue_c5_amended (5 * msPerDay) 0 (by decide)⟩

/-! ## C9: the email day count never goes negative -/

/-- Claim C9: on valid dates `calculateDaysUntil` is non-negative, and for a
future date on or before the base date it returns 0 rather than a negative
day count. -/
theorem email_days_c9 (futureDate fromDate : Int) :
    0 ≤ calculateDaysUntil futureDate fromDate ∧
    (futureDate ≤ fromDate → calculateDaysUntil futureDate fromDate = 0) := by
  constructor
  · unfold calculateDaysUntil
    dsimp only
    split
    · omega
    · omega
  · intro h
    have hle : ceilDiv (futureDate - fromDate) msPerDay ≤ 0 :=
      ceilDiv_nonpos (by omega) (by decide)
    unfold calculateDaysUntil
    dsimp only
    rw [if_neg (by omega)]

/-- Witness for C9 with a service date one day before the base date. -/
theorem email_days_c9_witness :
    0 ≤ calculateDaysUntil 0 msPerDay ∧ (0 : Int) ≤ msPerDay ∧
    calculateDaysUntil 0 msPerDay = 0 :=
  ⟨(email_days_c9 0 msPerDay).1, by decide, (email_days_c9 0 msPerDay).2 (by decide)⟩

/-! ## Characterizing the firebase forEach fold -/

/-- One firebase loop iteration adds the three indicator values of the unit
to the running counters and leaves the total alone. -/
theorem fbStep_spec (now : Int) (stats : DashboardStats) (u : AcUnit) :
    fbStep now stats u =
      { stats with
        overdueServices := stats.overdueServices + (if fbOverdueB now u then 1 else 0)
        upcomingServices := stats.upcomingServices + (if fbUpcomingB now u then 1 else 0)
        servicesCompleted := stats.servicesCompleted + (if fbCompletedB u then 1 else 0) } := by
  unfold fbStep fbOverdueB fbUpcomingB fbCompletedB
  by_cases h1 : fbDaysTill u now < 0 <;> by_cases h2 : fbDaysTill u now ≤ 30 <;>
    by_cases h3 : u.lastServiceDate.isSome <;>
      simp [h1, h2, h3]

/-- Folding the firebase loop over a list counts, on top of the initial
counters, the units passing each of the three conditions. -/
theorem fb_foldl_spec (now : Int) (l : List AcUnit) :
    ∀ init : DashboardStats,
      List.foldl (fbStep now) init l =
        { totalUnits := init.totalUnits
          upcomingServices := init.upcomingServices + (l.filter (fbUpcomingB now)).length
          overdueServices := init.overdueServices + (l.filter (fbOverdueB now)).length
          servicesCompleted := init.servicesCompleted + (l.filter fbCompletedB).length } := by
  induction l with
  | nil => intro init; simp
  | cons a tl ih =>
    intro init
    rw [List.foldl_cons, fbStep_spec, ih]
    by_cases h1 : fbOverdueB now a <;> by_cases h2 : fbUpcomingB now a <;>
      by_cases h3 : fbCompletedB a <;>
        simp [List.filter_cons, h1, h2, h3] <;> omega

/-- The firebase `getDashboardStats` is the length of the list together with
the counts of its three per-unit conditions. -/
theorem getDashboardStatsFirebase_spec (units : List AcUnit) (now : Int) :
    getDashboardStatsFirebase units now =
      { totalUnits := units.length
        upcomingServices := (units.filter (fbUpcomingB now)).length
        overdueServices := (units.filter (fbOverdueB now)).length
        servicesCompleted := (units.filter fbCompletedB).length } := by
  unfold getDashboardStatsFirebase
  rw [fb_foldl_spec]
  simp

/-- The firebase upcoming condition is equivalent to asking for a floor day
count between 0 and 30 inclusive. -/
theorem fbUpcomingB_eq (now : Int) (u : AcUnit) :
    fbUpcomingB now u = (0 ≤ fbDaysTill u now && fbDaysTill u now ≤ 30) := by
  unfold fbUpcomingB
  by_cases h : fbDaysTill u now < 0
  · have h0 : ¬(0 ≤ fbDaysTill u now) := by omega
    simp [h, h0]
  · have h0 : 0 ≤ fbDaysTill u now := by omega
    simp [h, h0]

/-! ## C2: what the two aggregators count as upcoming and overdue -/

/-- Counterexample to C2 as stated: a unit whose next service date equals
now has `daysRemaining = 0` under every whole-day rounding, so the claimed
count of units with `0 < daysRemaining <= 30` is 0, yet the firebase
aggregator reports it as upcoming. -/
theorem stats_c2_counterexample :
    (getDashboardStatsFirebase [AcUnit.mk 1 1 "Garage" none 0 none 0] 0).upcomingServices = 1 ∧
    specUpcomingCount [AcUnit.mk 1 1 "Garage" none 0 none 0] 0 = 0 := by
  constructor
  · decide
  · decide

/-- Claim C2 (amended): the server aggregator counts as upcoming the units
whose ceiling day count lies in (0, 30] and as overdue the units whose next
service date is strictly before now in milliseconds; the firebase
aggregator, with a floor day count, counts as overdue those with a negative
count and as upcoming those with a count in [0, 30]. -/
theorem stats_c2_amended (units : List AcUnit) (now : Int) :
    (serverStatsOf units now).upcomingServices =
      (units.filter (fun u => 0 < serverDiffDays u now && serverDiffDays u now ≤ 30)).length ∧
    (serverStatsOf units now).overdueServices =
      (units.filter (fun u => u.nextServiceDate < now)).length ∧
    (getDashboardStatsFirebase units now).overdueServices =
      (units.filter (fun u => fbDaysTill u now < 0)).length ∧
    (getDashboardStatsFirebase units now).upcomingServices =
      (units.filter (fun u => 0 ≤ fbDaysTill u now && fbDaysTill u now ≤ 30)).length := by
  refine ⟨rfl, rfl, ?_, ?_⟩
  · rw [getDashboardStatsFirebase_spec]
    rfl
  · rw [getDashboardStatsFirebase_spec]
    exact congrArg List.length (List.filter_congr (fun x _ => fbUpcomingB_eq now x))

/-! ## C3: what the two aggregators count as completed -/

/-- Counterexample to C3 as stated: a unit serviced two days ago but whose
next service date is already one day past is counted as completed by the
firebase aggregator, though its next service date is not after now. -/
theorem completed_c3_counterexample :
    (getDashboardStatsFirebase
      [AcUnit.mk 1 1 "Garage" (some (-(2 * msPerDay))) (-msPerDay) none (-(2 * msPerDay))]
      0).servicesCompleted = 1 ∧
    ([AcUnit.mk 1 1 "Garage" (some (-(2 * msPerDay))) (-msPerDay) none (-(2 * msPerDay))].filter
      (specCompletedB 0)).length = 0 := by
  constructor
  · decide
  · decide

/-- Claim C3 (amended): the server aggregator counts units having a
non-null last-service date on/before now and a next-service date after now;
the firebase aggregator counts every unit with a non-null last-service
date, with no date comparison at all. -/
theorem completed_c3_amended (units : List AcUnit) (now : Int) :
    (serverStatsOf units now).servicesCompleted =
      (units.filter (specCompletedB now)).length ∧
    (getDashboardStatsFirebase units now).servicesCompleted =
      (units.filter (fun u => u.lastServiceDate.isSome)).length := by
  constructor
  · rfl
  · rw [getDashboardStatsFirebase_spec]
    rfl

/-! ## C4: a next service date exactly equal to now -/

/-- Counterexample to C4 as stated: at the boundary the server aggregator
counts the unit in neither bucket, so it is not classified Upcoming there
(though it is indeed not Overdue). -/
theorem boundary_c4_counterexample :
    (AcUnit.mk 1 1 "Garage" none 0 none 0).nextServiceDate = 0 ∧
    (serverStatsOf [AcUnit.mk 1 1 "Garage" none 0 none 0] 0).upcomingServices = 0 ∧
    (serverStatsOf [AcUnit.mk 1 1 "Garage" none 0 none 0] 0).overdueServices = 0 := by
  refine ⟨rfl, ?_, ?_⟩
  · decide
  · decide

/-- Claim C4 (amended): for a next service date exactly equal to now the day
count is 0 and the unit is never Overdue anywhere; it is Upcoming/Urgent in
the card classifier and in the firebase aggregator, while the server
aggregator counts it in neither the upcoming nor the overdue bucket. -/
theorem boundary_c4_amended (u : AcUnit) (now : Int) (h : u.nextServiceDate = now) :
    cardDaysRemaining u.nextServiceDate now = 0 ∧
    cardStatus u.nextServiceDate now = CardStatus.upcoming ∧
    fbOverdueB now u = false ∧
    fbUpcomingB now u = true ∧
    serverOverdueB now u = false ∧
    serverUpcomingB now u = false := by
  have hz : u.nextServiceDate - now = 0 := by omega
  have hcd : cardDaysRemaining u.nextServiceDate now = 0 := by
    unfold cardDaysRemaining differenceInDays
    rw [hz]
    decide
  refine ⟨hcd, ?_, ?_, ?_, ?_, ?_⟩
  · simp [cardStatus, hcd]
  · unfold fbOverdueB fbDaysTill
    rw [hz]
    decide
  · unfold fbUpcomingB fbDaysTill
    rw [hz]
    decide
  · unfold serverOverdueB
    simp [h]
  · unfold serverUpcomingB serverDiffDays
    rw [hz]
    decide

/-- Witness for the amended C4 at a concrete unit due exactly now. -/
theorem boundary_c4_amended_witness :
    cardDaysRemaining (AcUnit.mk 1 1 "Garage" none 0 none 0).nextServiceDate 0 = 0 ∧
    cardStatus (AcUnit.mk 1 1 "Garage" none 0 none 0).nextServiceDate 0 = CardStatus.upcoming ∧
    fbOverdueB 0 (AcUnit.mk 1 1 "Garage" none 0 none 0) = false ∧
    fbUpcomingB 0 (AcUnit.mk 1 1 "Garage" none 0 none 0) = true ∧
    serverOverdueB 0 (AcUnit.mk 1 1 "Garage" none 0 none 0) = false ∧
    serverUpcomingB 0 (AcUnit.mk 1 1 "Garage" none 0 none 0) = false :=
  boundary_c4_amended (AcUnit.mk 1 1 "Garage" none 0 none 0) 0 rfl

/-! ## C6: the aggregator counts stay within the total -/

/-- Claim C6: in both aggregator implementations, completed services never
exceed the total and overdue plus upcoming never exceed the total. -/
theorem stats_bounds_c6 (units : List AcUnit) (now : Int) :
    (serverStatsOf units now).servicesCompleted ≤ (serverStatsOf units now).totalUnits ∧
    (serverStatsOf units now).overdueServices + (serverStatsOf units now).upcomingServices ≤
      (serverStatsOf units now).totalUnits ∧
    (getDashboardStatsFirebase units now).servicesCompleted ≤
      (getDashboardStatsFirebase units now).totalUnits ∧
    (getDashboardStatsFirebase units now).overdueServices +
        (getDashboardStatsFirebase units now).upcomingServices ≤
      (getDashboardStatsFirebase units now).totalUnits := by
  refine ⟨?_, ?_, ?_, ?_⟩
  · exact List.length_filter_le _ _
  · apply length_filter_add_length_filter_le
    intro u ho hu
    unfold serverOverdueB at ho
    unfold serverUpcomingB at hu
    simp at ho hu
    have hle : serverDiffDays u now ≤ 0 := by
      unfold serverDiffDays
      exact ceilDiv_nonpos (by omega) (by decide)
    omega
  · rw [getDashboardStatsFirebase_spec]
    exact List.length_filter_le _ _
  · rw [getDashboardStatsFirebase_spec]
    apply length_filter_add_length_filter_le
    intro u ho hu
    unfold fbOverdueB at ho
    unfold fbUpcomingB at hu
    simp at ho hu
    omega

/-! ## C7: create-then-fetch round trip -/

/-- Claim C7: starting from a store holding no AC units for the inserting
user, with the id counter fresh for the stored map, creating a unit and
then fetching the user's units returns exactly the new unit, whose location
and next service date are the values given at creation. -/
theorem roundtrip_c7 (s : MemStorage) (insert : InsertAcUnit) (now : Int)
    (hEmpty : s.getAcUnitsByUserId insert.userId = [])
    (hFresh : ∀ u ∈ s.acUnits, u.id ≠ s.acUnitIdCounter) :
    ((s.createAcUnit insert now).2).getAcUnitsByUserId insert.userId =
      [(s.createAcUnit insert now).1] ∧
    (s.createAcUnit insert now).1.location = insert.location ∧
    (s.createAcUnit insert now).1.nextServiceDate = insert.nextServiceDate := by
  refine ⟨?_, rfl, rfl⟩
  have hany : (s.acUnits.any (fun u => u.id == s.acUnitIdCounter)) = false := by
    rw [List.any_eq_false]
    intro u hu
    simp [hFresh u hu]
  unfold MemStorage.createAcUnit MemStorage.getAcUnitsByUserId mapSet
  dsimp only
  rw [hany]
  simp only [Bool.false_eq_true, if_false, List.filter_append]
  have h1 : s.acUnits.filter (fun u => u.userId == insert.userId) = [] := hEmpty
  rw [h1]
  simp

/-- Witness for C7: an empty store, a Garage unit due 2025-01-01 (epoch
milliseconds 1735689600000). -/
theorem roundtrip_c7_witness :
    (((MemStorage.mk [] 1).createAcUnit
        (InsertAcUnit.mk 1 "Garage" none 1735689600000 none) 0).2).getAcUnitsByUserId 1 =
      [((MemStorage.mk [] 1).createAcUnit
        (InsertAcUnit.mk 1 "Garage" none 1735689600000 none) 0).1] ∧
    ((MemStorage.mk [] 1).createAcUnit
      (InsertAcUnit.mk 1 "Garage" none 1735689600000 none) 0).1.location = "Garage" ∧
    ((MemStorage.mk [] 1).createAcUnit
      (InsertAcUnit.mk 1 "Garage" none 1735689600000 none) 0).1.nextServiceDate = 1735689600000 := by
  have h := roundtrip_c7 (MemStorage.mk [] 1)
    (InsertAcUnit.mk 1 "Garage" none 1735689600000 none) 0 rfl (by simp)
  exact ⟨h.1, h.2.1, h.2.2⟩

/-! ## C10: the update operation and its frame -/

/-- Claim C10: updating a missing id returns `undefined` and leaves the
store unchanged; updating an existing unit merges the present fields only,
keeps `id` and `createdAt` and every absent field, and preserves every unit
stored under another id. -/
theorem update_frame_c10 (s : MemStorage) (id : Nat) (d : UpdateAcUnitData) :
    (s.getAcUnit id = none → s.updateAcUnit id d = (none, s)) ∧
    (∀ u, s.getAcUnit id = some u →
      (s.updateAcUnit id d).1 = some (applyUpdate u d) ∧
      (applyUpdate u d).id = u.id ∧
      (applyUpdate u d).createdAt = u.createdAt ∧
      (d.userId = none → (applyUpdate u d).userId = u.userId) ∧
      (d.location = none → (applyUpdate u d).location = u.location) ∧
      (d.lastServiceDate = none → (applyUpdate u d).lastServiceDate = u.lastServiceDate) ∧
      (d.nextServiceDate = none → (applyUpdate u d).nextServiceDate = u.nextServiceDate) ∧
      (d.notes = none → (applyUpdate u d).notes = u.notes) ∧
      (∀ v ∈ s.acUnits, v.id ≠ id → v ∈ (s.updateAcUnit id d).2.acUnits)) := by
  constructor
  · intro h
    unfold MemStorage.updateAcUnit
    rw [h]
  · intro u hu
    refine ⟨?_, rfl, rfl, ?_, ?_, ?_, ?_, ?_, ?_⟩
    · unfold MemStorage.updateAcUnit
      rw [hu]
    · intro hn; simp [applyUpdate, hn]
    · intro hn; simp [applyUpdate, hn]
    · intro hn; simp [applyUpdate, hn]
    · intro hn; simp [applyUpdate, hn]
    · intro hn; simp [applyUpdate, hn]
    · intro v hv hne
      unfold MemStorage.updateAcUnit
      rw [hu]
      dsimp only
      unfold mapSet
      have hu' : s.acUnits.find? (fun x => x.id == id) = some u := hu
      have hmem : u ∈ s.acUnits := List.mem_of_find?_eq_some hu'
      have hpu := List.find?_some hu'
      have hany : s.acUnits.any (fun x => x.id == id) = true :=
        List.any_eq_true.mpr ⟨u, hmem, hpu⟩
      rw [hany]
      simp only [if_true]
      refine List.mem_map.mpr ⟨v, hv, ?_⟩
      have hvid : (v.id == id) = false := by simp [hne]
      simp [hvid]

/-- Witness for C10: a two-unit store, a PATCH body carrying only a new
location; the missing-id branch at id 5 and the found branch at id 1. -/
theorem update_frame_c10_witness :
    (MemStorage.mk
        [AcUnit.mk 1 1 "Garage" none 0 none 0, AcUnit.mk 2 1 "Attic" none 5 none 0]
        3).updateAcUnit 5 (UpdateAcUnitData.mk none (some "Basement") none none none) =
      (none, MemStorage.mk
        [AcUnit.mk 1 1 "Garage" none 0 none 0, AcUnit.mk 2 1 "Attic" none 5 none 0] 3) ∧
    ((MemStorage.mk
        [AcUnit.mk 1 1 "Garage" none 0 none 0, AcUnit.mk 2 1 "Attic" none 5 none 0]
        3).updateAcUnit 1 (UpdateAcUnitData.mk none (some "Basement") none none none)).1 =
      some (applyUpdate (AcUnit.mk 1 1 "Garage" none 0 none 0)
        (UpdateAcUnitData.mk none (some "Basement") none none none)) ∧
    (applyUpdate (AcUnit.mk 1 1 "Garage" none 0 none 0)
      (UpdateAcUnitData.mk none (some "Basement") none none none)).createdAt = 0 ∧
    AcUnit.mk 2 1 "Attic" none 5 none 0 ∈
      ((MemStorage.mk
        [AcUnit.mk 1 1 "Garage" none 0 none 0, AcUnit.mk 2 1 "Attic" none 5 none 0]
        3).updateAcUnit 1 (UpdateAcUnitData.mk none (some "Basement") none none none)).2.acUnits := by
  have h1 := (update_frame_c10
    (MemStorage.mk
      [AcUnit.mk 1 1 "Garage" none 0 none 0, AcUnit.mk 2 1 "Attic" none 5 none 0] 3)
    5 (UpdateAcUnitData.mk none (some "Basement") none none none)).1 (by decide)
  have h2 := (update_frame_c10
    (MemStorage.mk
      [AcUnit.mk 1 1 "Garage" none 0 none 0, AcUnit.mk 2 1 "Attic" none 5 none 0] 3)
    1 (UpdateAcUnitData.mk none (some "Basement") none none none)).2
    (AcUnit.mk 1 1 "Garage" none 0 none 0) (by decide)
  obtain ⟨ha, hb, hc, hd, he, hf, hg, hh, hi⟩ := h2
  exact ⟨h1, ha, hc, hi (AcUnit.mk 2 1 "Attic" none 5 none 0) (by decide) (by decide)⟩

/-! ## C8: ownership checks on /api/ac-units/:id -/

/-- Claim C8: for GET, PATCH or DELETE on `/api/ac-units/:id`, a session
without a user gets 401, a missing unit gets 404, and a session whose user
differs from the unit's owner gets 403 — in every such case the store comes
back exactly as it was, so the unit is neither modified nor deleted. -/
theorem auth_c8 (m : Method) (sess : Option Nat) (id : Nat)
    (body : UpdateAcUnitData) (s : MemStorage) :
    (sess = none → handleAcUnitById m sess id body s = (401, s)) ∧
    (∀ uid, sess = some uid → s.getAcUnit id = none →
      handleAcUnitById m sess id body s = (404, s)) ∧
    (∀ uid u, sess = some uid → s.getAcUnit id = some u → u.userId ≠ uid →
      handleAcUnitById m sess id body s = (403, s)) := by
  refine ⟨?_, ?_, ?_⟩
  · intro h
    subst h
    rfl
  · intro uid hs hn
    subst hs
    unfold handleAcUnitById
    rw [hn]
  · intro uid u hs hu hne
    subst hs
    unfold handleAcUnitById
    rw [hu]
    dsimp only
    rw [if_pos hne]

/-- Witness for C8: a store owning unit 1 under user 1; an anonymous PATCH,
a PATCH on missing id 9 by user 2, and a DELETE on unit 1 by user 2. -/
theorem auth_c8_witness :
    handleAcUnitById Method.patch none 1
      (UpdateAcUnitData.mk none none none none none)
      (MemStorage.mk [AcUnit.mk 1 1 "Garage" none 0 none 0] 2) =
      (401, MemStorage.mk [AcUnit.mk 1 1 "Garage" none 0 none 0] 2) ∧
    handleAcUnitById Method.patch (some 2) 9
      (UpdateAcUnitData.mk none none none none none)
      (MemStorage.mk [AcUnit.mk 1 1 "Garage" none 0 none 0] 2) =
      (404, MemStorage.mk [AcUnit.mk 1 1 "Garage" none 0 none 0] 2) ∧
    handleAcUnitById Method.delete (some 2) 1
      (UpdateAcUnitData.mk none none none none none)
      (MemStorage.mk [AcUnit.mk 1 1 "Garage" none 0 none 0] 2) =
      (403, MemStorage.mk [AcUnit.mk 1 1 "Garage" none 0 none 0] 2) := by
  refine ⟨?_, ?_, ?_⟩
  · exact (auth_c8 Method.patch none 1 (UpdateAcUnitData.mk none none none none none)
      (MemStorage.mk [AcUnit.mk 1 1 "Garage" none 0 none 0] 2)).1 rfl
  · exact (auth_c8 Method.patch (some 2) 9 (UpdateAcUnitData.mk none none none none none)
      (MemStorage.mk [AcUnit.mk 1 1 "Garage" none 0 none 0] 2)).2.1 2 rfl (by decide)
  · exact (auth_c8 Method.delete (some 2) 1 (UpdateAcUnitData.mk none none none none none)
      (MemStorage.mk [AcUnit.mk 1 1 "Garage" none 0 none 0] 2)).2.2 2
      (AcUnit.mk 1 1 "Garage" none 0 none 0) rfl (by decide) (by decide)
